import Mathlib

/-!
A model of the PTY helper (`src/infrastructure/pty/pty-helper.py`).

The helper allocates a pseudo-terminal, spawns a child process attached to
it, and bridges the child to a parent process speaking newline-delimited
JSON over stdio.  The embedding below translates the helper's state and
operations directly from the Python source.  Operating-system calls
(`pty.fork`, `os.read`, `os.write`, `fcntl.ioctl`, `os.waitpid`,
`os.kill`) are represented by explicit oracle values describing their
outcome; the byte stream the PTY master will deliver is modelled as a
list of chunks followed by a persistent end-of-file (PTY semantics: a
read never returns zero bytes with more data still to come, and once the
slave side is gone reads keep failing).
-/

namespace Helper

/-- JSON values, as produced by `json.loads` on one input line. -/
inductive Json
  | null
  | bool (b : Bool)
  | num (n : Int)
  | str (s : String)
  | arr (elems : List Json)
  | obj (fields : List (String × Json))

/-- Outbound protocol events (the payloads passed to `_send`). -/
inductive Event
  | spawned (pid : Nat)
  | output (data : String)
  | exit (code : Int)
  | error (message : String)
  | killed
deriving DecidableEq

/-- Python exceptions that can escape `_handle_command`.  `attributeError`
carries the offending Python type's name (the real message is
`<type> object has no attribute get`); `osError` carries the error
message of an `OSError` that no handler inside the command path catches
(the only such call is `pty.fork`); `structError` is `struct.error` from
`struct.pack` in `resize` — not an `OSError`, so `resize`'s own
`except OSError` does not catch it. -/
inductive PyError
  | attributeError (tyName : String)
  | osError (message : String)
  | structError (message : String)
deriving DecidableEq

/-- The helper's mutable state, exactly the attributes set in
`PtyHelper.__init__`. -/
structure PtyHelper where
  master_fd : Option Nat
  pid : Option Nat
  running : Bool
deriving DecidableEq

/-- Outcome of `pty.fork()` as seen by the parent: either a child pid and
a master descriptor — together with the chunks that child will eventually
make readable on the master, which is part of the OS model, not helper
state — or an `OSError`. -/
inductive ForkResult
  | ok (pid fd : Nat) (stream : List String)
  | err (message : String)
deriving DecidableEq

/-- Child status reported by a successful non-blocking `os.waitpid`. -/
inductive WaitStatus
  | exited (code : Nat)
  | signaled (sig : Nat)
  | other
deriving DecidableEq

/-- Outcome of `os.waitpid(pid, WNOHANG)`: the child is still running
(`(0, _)` returned), the child was reaped with some status, or the call
raised `ChildProcessError`. -/
inductive WaitResult
  | notYet
  | reaped (st : WaitStatus)
  | noChild
deriving DecidableEq

/-- `PtyHelper.spawn`, parent side.  `pty.fork` either succeeds — the
parent records pid and master descriptor, marks the session running, sets
the descriptor non-blocking and emits `spawned` — or raises `OSError`,
which `spawn` does not catch.  The child branch of the fork (`os.chdir`
and `os.execvpe`) runs in a different OS process and is not helper state;
`cmd`, `args`, `cwd` and `env` only affect that child. -/
def PtyHelper.spawn (h : PtyHelper) (fork : ForkResult) :
    Except PyError (PtyHelper × List Event) :=
  match fork with
  | .err m => .error (.osError m)
  | .ok pid fd _ =>
      .ok ({ master_fd := some fd, pid := some pid, running := true },
           [.spawned pid])

/-- `PtyHelper.resize`: if a master descriptor exists, pack the window
size with `struct.pack('HHHH', rows, cols, 0, 0)` — a value outside the
unsigned 16-bit range 0..65535 raises `struct.error`, which is not an
`OSError` and so escapes the `except OSError: pass` — then attempt the
`TIOCSWINSZ` ioctl, whose `OSError` is swallowed.  `ioctlFails` is the
oracle for the ioctl outcome. -/
def PtyHelper.resize (h : PtyHelper) (cols rows : Int) (ioctlFails : Bool) :
    Except PyError (PtyHelper × List Event) :=
  match h.master_fd with
  | none => .ok (h, [])
  | some _ =>
      if 0 ≤ rows ∧ rows ≤ 65535 ∧ 0 ≤ cols ∧ cols ≤ 65535 then
        if ioctlFails then .ok (h, []) else .ok (h, [])
      else .error (.structError "H format requires 0 <= number <= 65535")

/-- `PtyHelper.write`: if a master descriptor exists, attempt `os.write`;
`writeRes = some m` means the write raised `OSError(m)`, which is
reported as an `error` event; `none` means it succeeded. -/
def PtyHelper.write (h : PtyHelper) (data : String) (writeRes : Option String) :
    PtyHelper × List Event :=
  match h.master_fd with
  | none => (h, [])
  | some _ =>
      match writeRes with
      | none => (h, [])
      | some m => (h, [.error ("Write failed: " ++ m)])

/-- `PtyHelper.kill`: if a pid is recorded, send `SIGTERM`, swallowing
`ProcessLookupError` (`lookupFails` is the oracle for that outcome);
then unconditionally clear `running` and emit `killed`. -/
def PtyHelper.kill (h : PtyHelper) (lookupFails : Bool) :
    PtyHelper × List Event :=
  match h.pid with
  | some _ => ({ h with running := false }, [.killed])
  | none => ({ h with running := false }, [.killed])

/-- The `code` computed by `_check_exit` from a reaped status:
`os.WEXITSTATUS` on a normal exit, minus `os.WTERMSIG` on a signal
death, `-1` otherwise. -/
def exitCodeOf : WaitStatus → Int
  | .exited c => Int.ofNat c
  | .signaled s => -(Int.ofNat s)
  | .other => -1

/-- `PtyHelper._check_exit`: when a pid is recorded, poll it with
`os.waitpid(pid, WNOHANG)`.  If the child was reaped, the exit code is
`os.WEXITSTATUS` for a normal exit, minus `os.WTERMSIG` for a signal
death, and `-1` otherwise; `ChildProcessError` also yields `-1`.  In all
terminated cases exactly one `exit` event is emitted, `running` is
cleared and `pid` is set to `None`. -/
def PtyHelper.checkExit (h : PtyHelper) (res : WaitResult) :
    PtyHelper × List Event :=
  match h.pid with
  | none => (h, [])
  | some _ =>
      match res with
      | .notYet => (h, [])
      | .reaped st =>
          ({ h with running := false, pid := none }, [.exit (exitCodeOf st)])
      | .noChild => ({ h with running := false, pid := none }, [.exit (-1)])

/-- Helper state together with the OS-side model of the PTY master: the
chunks `os.read(master_fd, ...)` will still deliver before reporting
end-of-file (or `EIO`, which the code treats identically).  Exhaustion is
persistent; a new `spawn` installs the new child's stream. -/
structure World where
  helper : PtyHelper
  mstream : List String
deriving DecidableEq

/-- The pending master-side stream a fork result installs. -/
def forkStream : ForkResult → List String
  | .ok _ _ st => st
  | .err _ => []

def spawnW (w : World) (fork : ForkResult) : Except PyError (World × List Event) :=
  match w.helper.spawn fork with
  | .error e => .error e
  | .ok (h, evs) => .ok (⟨h, forkStream fork⟩, evs)

def writeW (w : World) (data : String) (writeRes : Option String) :
    World × List Event :=
  ({ w with helper := (w.helper.write data writeRes).1 },
   (w.helper.write data writeRes).2)

def resizeW (w : World) (cols rows : Int) (ioctlFails : Bool) :
    Except PyError (World × List Event) :=
  match w.helper.resize cols rows ioctlFails with
  | .error e => .error e
  | .ok (h, evs) => .ok ({ w with helper := h }, evs)

def killW (w : World) (lookupFails : Bool) : World × List Event :=
  ({ w with helper := (w.helper.kill lookupFails).1 },
   (w.helper.kill lookupFails).2)

def checkExitW (w : World) (res : WaitResult) : World × List Event :=
  ({ w with helper := (w.helper.checkExit res).1 },
   (w.helper.checkExit res).2)

/-- Result of `json.loads` on one input line (the JSON parser is Python
library code, treated as an oracle: either a `JSONDecodeError` with its
message, or a decoded value). -/
inductive Decoded
  | failed (details : String)
  | value (j : Json)

/-- Outcomes of the OS calls that handling a single command can make. -/
structure OsOracle where
  fork : ForkResult
  writeRes : Option String
  ioctlFails : Bool
  killLookupFails : Bool

/-- Python `dict.get` on an object decoded from JSON (with duplicate keys
the last occurrence wins, as in `json.loads`). -/
def dictGet (kvs : List (String × Json)) (k : String) : Option Json :=
  kvs.foldl (fun acc kv => if kv.1 = k then some kv.2 else acc) none

/-- Python's `cmd_type == s` for a string literal `s`: true exactly when
the value fetched from the dict is that very string (any other value,
including `None` for a missing key, compares unequal). -/
def typeIs (t : Option Json) (s : String) : Bool :=
  match t with
  | some (Json.str v) => v == s
  | _ => false

/-- `cmd.get(k, dflt)` at a call site that uses the value as a string.
(A non-string value would fail further down in the Python code; no claim
exercises that path, so the model falls back to the default there.) -/
def strField (kvs : List (String × Json)) (k dflt : String) : String :=
  match dictGet kvs k with
  | some (Json.str s) => s
  | _ => dflt

/-- `cmd.get(k, dflt)` at a call site that uses the value as an integer;
same convention as `strField`. -/
def intField (kvs : List (String × Json)) (k : String) (dflt : Int) : Int :=
  match dictGet kvs k with
  | some (Json.num n) => n
  | _ => dflt

/-- How a decoded value is rendered inside an f-string (`None`, `True`,
`False` for the singletons; container rendering is abbreviated — no
claim depends on it). -/
def pyShowJson : Json → String
  | .null => "None"
  | .bool true => "True"
  | .bool false => "False"
  | .num n => toString n
  | .str s => s
  | .arr _ => "[list]"
  | .obj _ => "[dict]"

def pyShowOpt : Option Json → String
  | none => "None"
  | some j => pyShowJson j

/-- The Python type name of a decoded value, as it appears in the
`AttributeError` raised by `cmd.get` on a non-dict. -/
def pyTypeName : Json → String
  | .null => "NoneType"
  | .bool _ => "bool"
  | .num _ => "int"
  | .str _ => "str"
  | .arr _ => "list"
  | .obj _ => "dict"

/-- `PtyHelper._handle_command`, with `json.loads` already performed by
the oracle.  A decode failure reports `Invalid JSON: ...` and returns to
the loop.  A decoded non-dict raises `AttributeError` at `cmd.get`
(uncaught here).  Otherwise the elif-chain dispatches on the `type`
field, and an unrecognized discriminator reports `Unknown command: ...`. -/
def handleCommand (w : World) (d : Decoded) (os : OsOracle) :
    Except PyError (World × List Event) :=
  match d with
  | .failed details => .ok (w, [.error ("Invalid JSON: " ++ details)])
  | .value (Json.obj kvs) =>
      let t := dictGet kvs "type"
      if typeIs t "spawn" then
        spawnW w os.fork
      else if typeIs t "write" then
        .ok (writeW w (strField kvs "data" "") os.writeRes)
      else if typeIs t "resize" then
        resizeW w (intField kvs "cols" 80) (intField kvs "rows" 24)
          os.ioctlFails
      else if typeIs t "kill" then
        .ok (killW w os.killLookupFails)
      else
        .ok (w, [.error ("Unknown command: " ++ pyShowOpt t)])
  | .value j => .error (.attributeError (pyTypeName j))

/-- The buffer-splitting loop of `PtyHelper.run`
(`while '\n' in buffer: line, buffer = buffer.split('\n', 1)`), on the
character list of the buffer: returns every complete line and the
remaining (unterminated) buffer. -/
def splitLinesCh : List Char → List (List Char) × List Char
  | [] => ([], [])
  | c :: rest =>
      let (ls, buf) := splitLinesCh rest
      if c = '\n' then ([] :: ls, buf)
      else
        match ls with
        | [] => ([], c :: buf)
        | l :: ls2 => ((c :: l) :: ls2, buf)

/-- Python's `line.strip()` used as a truth value: `true` when the line
is empty or all whitespace (such lines are skipped by the loop). -/
def isBlankCh : List Char → Bool
  | [] => true
  | c :: rest => c.isWhitespace && isBlankCh rest

/-- What became of the stdin-handling block of one loop iteration. -/
structure LinesOut where
  events : List Event
  w : World
  err : Option PyError

/-- Dispatching every complete line of the buffer in order
(`if line.strip(): self._handle_command(line)`).  The per-line oracle
`li` stands for `json.loads` plus the OS outcomes of that line's
command.  An exception from `_handle_command` skips the remaining
lines; events already sent stay sent. -/
def processLines (li : String → Decoded × OsOracle) :
    World → List (List Char) → LinesOut
  | w, [] => ⟨[], w, none⟩
  | w, l :: rest =>
      if isBlankCh l then processLines li w rest
      else
        let line : String := ⟨l⟩
        match handleCommand w (li line).1 (li line).2 with
        | .error e => ⟨[], w, some e⟩
        | .ok (w', evs) =>
            let out := processLines li w' rest
            ⟨evs ++ out.events, out.w, out.err⟩

/-- Outcome of `select.select([...], [], [], 0.05)`: either it raised
(`except (select.error, ValueError): break`) or it reported readiness of
stdin and of the PTY master. -/
inductive SelectResult
  | err
  | ready (stdinR masterR : Bool)
deriving DecidableEq

/-- Outcome of `os.read` on stdin: an `OSError`, or a chunk (already
decoded with `errors='replace'`, which cannot fail); the empty chunk is
end-of-file. -/
inductive ReadResult
  | err
  | chunk (s : String)
deriving DecidableEq

/-- The environment of one loop iteration: the outcomes of the OS calls
the iteration can make.  `lineInfo` gives, per command line, the
`json.loads` result and the OS outcomes of executing that command. -/
structure IterEnv where
  select : SelectResult
  stdinRead : ReadResult
  lineInfo : String → Decoded × OsOracle
  wait : WaitResult

/-- What the stdin-handling block did to the iteration. -/
inductive PhaseOut
  | brk (w : World) (buffer : List Char) (events : List Event)
  | exc (e : PyError) (events : List Event)
  | ok (w : World) (buffer : List Char) (events : List Event)

def PhaseOut.events' : PhaseOut → List Event
  | .brk _ _ evs => evs
  | .exc _ evs => evs
  | .ok _ _ evs => evs

/-- The `if stdin_fd in readable:` block of `PtyHelper.run`.  A read
error or an empty read breaks the loop.  Otherwise the chunk is appended
to the buffer and every complete line is dispatched; an `OSError`
escaping `_handle_command` (e.g. a failed `pty.fork`) is caught by this
block's own `except OSError: break`, while any other exception
propagates out of `run`. -/
def stdinPhase (stdinR : Bool) (w : World) (buffer : List Char)
    (env : IterEnv) : PhaseOut :=
  if stdinR then
    match env.stdinRead with
    | .err => .brk w buffer []
    | .chunk s =>
        if s = "" then .brk w buffer []
        else
          let pr := splitLinesCh (buffer ++ s.data)
          let out := processLines env.lineInfo w pr.1
          match out.err with
          | some (.osError _) => .brk out.w pr.2 out.events
          | some e => .exc e out.events
          | none => .ok out.w pr.2 out.events
  else .ok w buffer []

/-- The `if self.master_fd is not None and self.master_fd in readable:`
block: a non-empty read is emitted verbatim as `output`; an empty read
or an `OSError` triggers `_check_exit`. -/
def masterPhase (masterR : Bool) (w : World) (env : IterEnv) :
    World × List Event :=
  match w.helper.master_fd with
  | none => (w, [])
  | some _ =>
      if masterR then
        match w.mstream with
        | c :: rest =>
            if c = "" then checkExitW { w with mstream := rest } env.wait
            else ({ w with mstream := rest }, [.output c])
        | [] => checkExitW w env.wait
      else (w, [])

/-- What one iteration of the `while True:` loop did. -/
inductive StepOut
  | stop (w : World) (buffer : List Char) (events : List Event)
  | crash (e : PyError) (events : List Event)
  | cont (w : World) (buffer : List Char) (events : List Event)
deriving DecidableEq

/-- One iteration of `PtyHelper.run`: select, the stdin block, the PTY
master block, then `if self.pid is not None and not self.running:
break`. -/
def step (w : World) (buffer : List Char) (env : IterEnv) : StepOut :=
  match env.select with
  | .err => .stop w buffer []
  | .ready stdinR masterR =>
      match stdinPhase stdinR w buffer env with
      | .brk w' b' evs => .stop w' b' evs
      | .exc e evs => .crash e evs
      | .ok w' b' evs =>
          let m := masterPhase masterR w' env
          if m.1.helper.pid.isSome && !m.1.helper.running then
            .stop m.1 b' (evs ++ m.2)
          else
            .cont m.1 b' (evs ++ m.2)

/-- Result of running the loop against a finite list of iteration
environments: the loop broke, an exception escaped `run`, or the
environments ran out with the loop still going. -/
inductive RunOut
  | stopped (w : World) (buffer : List Char) (events : List Event)
  | crashed (e : PyError) (events : List Event)
  | pending (w : World) (buffer : List Char) (events : List Event)
deriving DecidableEq

def runTrace : World → List Char → List IterEnv → RunOut
  | w, b, [] => .pending w b []
  | w, b, env :: envs =>
      match step w b env with
      | .stop w' b' evs => .stopped w' b' evs
      | .crash e evs => .crashed e evs
      | .cont w' b' evs =>
          match runTrace w' b' envs with
          | .stopped w2 b2 evs2 => .stopped w2 b2 (evs ++ evs2)
          | .crashed e evs2 => .crashed e (evs ++ evs2)
          | .pending w2 b2 evs2 => .pending w2 b2 (evs ++ evs2)

def RunOut.events : RunOut → List Event
  | .stopped _ _ evs => evs
  | .crashed _ evs => evs
  | .pending _ _ evs => evs

/-- The state constructed in `PtyHelper.__init__` (no stream: no master
descriptor exists yet). -/
def initWorld : World := ⟨⟨none, none, false⟩, []⟩

/-- `main()`: run the loop from a fresh helper.  A normal return from
`run` lets the process finish with status 0; any exception other than
`KeyboardInterrupt` is caught at top level, a diagnostic goes to stderr
(outside the protocol) and the process exits with status 1.  `none` when
the supplied iteration environments end with the loop still running. -/
def mainResult (envs : List IterEnv) : Option (Nat × List Event) :=
  match runTrace initWorld [] envs with
  | .stopped _ _ evs => some (0, evs)
  | .crashed _ evs => some (1, evs)
  | .pending _ _ _ => none

/-! ### Concrete sample states and environments -/

def hSample : PtyHelper := ⟨some 3, some 9, true⟩

def hNoFd : PtyHelper := ⟨none, none, false⟩

/-- A world with an active session (pid 5 behind descriptor 3). -/
def w6 : World := ⟨⟨some 3, some 5, true⟩, []⟩

def os6 : OsOracle := ⟨.ok 7 4 [], none, false, false⟩

def failOracle : OsOracle := ⟨.err "fork failed", none, false, false⟩

def lineSpawn : String → Decoded × OsOracle :=
  fun _ => (.value (.obj [("type", Json.str "spawn")]), failOracle)

/-- An iteration whose stdin chunk is one spawn command and whose
`pty.fork` fails with an `OSError`. -/
def envSpawnFail : IterEnv := ⟨.ready true false, .chunk "cmd\n", lineSpawn, .notYet⟩

def lineNum : String → Decoded × OsOracle :=
  fun _ => (.value (.num 42), failOracle)

/-- An iteration whose stdin chunk is the line `42` (valid JSON, not an
object). -/
def envNum : IterEnv := ⟨.ready true false, .chunk "42\n", lineNum, .notYet⟩

def okOracle : OsOracle := ⟨.ok 1 2 ["hi"], none, false, false⟩

def lineSpawnOk : String → Decoded × OsOracle :=
  fun _ => (.value (.obj [("type", Json.str "spawn")]), okOracle)

/-- An iteration whose stdin chunk is one spawn command whose fork
succeeds, installing a child that will produce the chunk `hi`. -/
def envSpawnOk : IterEnv :=
  ⟨.ready true false, .chunk "cmd\n", lineSpawnOk, .notYet⟩

/-- An iteration in which `select` itself raises. -/
def envSelErr : IterEnv := ⟨.err, .chunk "", lineSpawn, .notYet⟩

def lineResizeBig : String → Decoded × OsOracle :=
  fun _ => (.value (.obj [("type", Json.str "resize"),
                          ("cols", Json.num 100000)]), failOracle)

/-- An iteration whose stdin chunk is one resize command with a cols
value outside the unsigned 16-bit range. -/
def envResizeBig : IterEnv :=
  ⟨.ready true false, .chunk "rsz\n", lineResizeBig, .notYet⟩

/-! ### Predicates used by the claims -/

/-- A discriminator value that matches none of the four command types. -/
def unknownType (t : Option Json) : Prop :=
  typeIs t "spawn" = false ∧ typeIs t "write" = false ∧
  typeIs t "resize" = false ∧ typeIs t "kill" = false

instance (t : Option Json) : Decidable (unknownType t) := by
  unfold unknownType; infer_instance

def isObjJson : Json → Bool
  | .obj _ => true
  | _ => false

/-- One step of the per-session event discipline: the state records
whether the current session has already reported `exit`; an `output` or
a second `exit` in that state is a violation (`none`), while a new
`spawned` starts a fresh session. -/
def chkStep (b : Bool) : Event → Option Bool
  | .output _ => if b then none else some b
  | .exit _ => if b then none else some true
  | .spawned _ => some false
  | _ => some b

/-- Run the discipline over an event list; `none` means some event broke
the rule "per session, `exit` at most once and no `output` after it". -/
def chkRun (b : Bool) : List Event → Option Bool
  | [] => some b
  | e :: rest =>
      match chkStep b e with
      | none => none
      | some b' => chkRun b' rest

/-- Invariant tying the discipline state to the world: once the current
session has reported `exit`, its pid is cleared and the master stream is
exhausted; and the stream never holds an empty chunk (an empty
`os.read` result means end-of-file, never data). -/
def Inv (b : Bool) (w : World) : Prop :=
  (b = true → w.helper.pid = none ∧ w.mstream = []) ∧ "" ∉ w.mstream

/-- Well-formedness of a command's OS outcome: a fork never installs an
empty chunk in the pending stream (`os.read` returning zero bytes means
end-of-file, so it cannot occur amid data). -/
def cleanOracle (os : OsOracle) : Prop := "" ∉ forkStream os.fork

def cleanEnv (env : IterEnv) : Prop := ∀ s, cleanOracle (env.lineInfo s).2

def cleanEnvs (envs : List IterEnv) : Prop := ∀ env ∈ envs, cleanEnv env

/-! ### Helper lemmas -/

theorem kill_spec (h : PtyHelper) (lookupFails : Bool) :
    h.kill lookupFails = ({ h with running := false }, [Event.killed]) := by
  cases hp : h.pid <;> simp [PtyHelper.kill, hp]

theorem resize_cases (h : PtyHelper) (cols rows : Int) (ioctlFails : Bool) :
    h.resize cols rows ioctlFails = .ok (h, []) ∨
      ∃ m, h.resize cols rows ioctlFails = .error (.structError m) := by
  unfold PtyHelper.resize
  cases hm : h.master_fd with
  | none => exact Or.inl rfl
  | some fd =>
      by_cases hin : 0 ≤ rows ∧ rows ≤ 65535 ∧ 0 ≤ cols ∧ cols ≤ 65535
      · rw [if_pos hin]
        cases ioctlFails
        · exact Or.inl rfl
        · exact Or.inl rfl
      · rw [if_neg hin]
        exact Or.inr ⟨_, rfl⟩

theorem write_fst (h : PtyHelper) (data : String) (res : Option String) :
    (h.write data res).1 = h := by
  cases hm : h.master_fd <;> cases res <;> simp [PtyHelper.write, hm]

theorem write_snd (h : PtyHelper) (data : String) (res : Option String) :
    (h.write data res).2 = [] ∨
      ∃ m, (h.write data res).2 = [Event.error ("Write failed: " ++ m)] := by
  cases hm : h.master_fd with
  | none => cases res <;> simp [PtyHelper.write, hm]
  | some fd =>
      cases res with
      | none => simp [PtyHelper.write, hm]
      | some m => exact Or.inr ⟨m, by simp [PtyHelper.write, hm]⟩

theorem chkRun_append (b : Bool) (l1 l2 : List Event) :
    chkRun b (l1 ++ l2) = (chkRun b l1).bind fun b' => chkRun b' l2 := by
  induction l1 generalizing b with
  | nil => simp [chkRun]
  | cons e rest ih =>
      simp only [List.cons_append, chkRun]
      cases chkStep b e with
      | none => simp
      | some b' => simp [ih]

/-! ### Properties of the individual operations -/

/-- C3: For every kill command, regardless of whether a child process
exists (`pid` recorded or not) and regardless of whether signal delivery
succeeds (`ProcessLookupError` swallowed), the helper emits exactly one
`killed` event and clears the `running` flag, leaving the other fields
unchanged. -/
theorem c3_kill_always_killed (h : PtyHelper) (lookupFails : Bool) :
    h.kill lookupFails = ({ h with running := false }, [Event.killed]) := by
  cases hp : h.pid <;> simp [PtyHelper.kill, hp]

/-- C4: For every exit check that observes a terminated child (a recorded
pid): a normal exit reports the child's own exit status, a signal death
reports the negated signal number, an indeterminate status or a
`ChildProcessError` reports `-1`; in each case exactly one `exit` event
is emitted and the pid is cleared (with `running` reset), and any exit
check on a state with no recorded pid is a no-op emitting nothing. -/
theorem c4_check_exit (h : PtyHelper) (p : Nat) (hp : h.pid = some p) :
    (∀ c, h.checkExit (.reaped (.exited c)) =
        ({ h with running := false, pid := none }, [Event.exit (Int.ofNat c)]))
  ∧ (∀ s, h.checkExit (.reaped (.signaled s)) =
        ({ h with running := false, pid := none },
         [Event.exit (-(Int.ofNat s))]))
  ∧ h.checkExit (.reaped .other) =
      ({ h with running := false, pid := none }, [Event.exit (-1)])
  ∧ h.checkExit .noChild =
      ({ h with running := false, pid := none }, [Event.exit (-1)])
  ∧ (∀ h' : PtyHelper, h'.pid = none → ∀ res, h'.checkExit res = (h', [])) := by
  refine ⟨?_, ?_, ?_, ?_, ?_⟩
  · intro c; simp [PtyHelper.checkExit, hp, exitCodeOf]
  · intro s; simp [PtyHelper.checkExit, hp, exitCodeOf]
  · simp [PtyHelper.checkExit, hp, exitCodeOf]
  · simp [PtyHelper.checkExit, hp]
  · intro h' hp' res; simp [PtyHelper.checkExit, hp']

theorem c4_witness :
    hSample.pid = some 9 ∧
    ((∀ c, hSample.checkExit (.reaped (.exited c)) =
        ({ hSample with running := false, pid := none },
         [Event.exit (Int.ofNat c)]))
  ∧ (∀ s, hSample.checkExit (.reaped (.signaled s)) =
        ({ hSample with running := false, pid := none },
         [Event.exit (-(Int.ofNat s))]))
  ∧ hSample.checkExit (.reaped .other) =
      ({ hSample with running := false, pid := none }, [Event.exit (-1)])
  ∧ hSample.checkExit .noChild =
      ({ hSample with running := false, pid := none }, [Event.exit (-1)])
  ∧ (∀ h' : PtyHelper, h'.pid = none → ∀ res, h'.checkExit res = (h', []))) :=
  ⟨rfl, c4_check_exit hSample 9 rfl⟩

/-- C5: Every input line that fails JSON decoding yields exactly one
`error` event whose message begins with `Invalid JSON:`; the state is
unchanged and the handler returns normally (the loop continues).  Every
decoded object whose discriminator matches none of the four command
types yields exactly one `error` event whose message begins with
`Unknown command:`. -/
theorem c5_decode_errors :
    (∀ (w : World) (details : String) (os : OsOracle),
        handleCommand w (.failed details) os =
          .ok (w, [Event.error ("Invalid JSON: " ++ details)]))
  ∧ (∀ (w : World) (kvs : List (String × Json)) (os : OsOracle),
        unknownType (dictGet kvs "type") →
        handleCommand w (.value (.obj kvs)) os =
          .ok (w, [Event.error
                     ("Unknown command: " ++ pyShowOpt (dictGet kvs "type"))])) := by
  constructor
  · intro w details os; rfl
  · intro w kvs os h
    simp [handleCommand, h.1, h.2.1, h.2.2.1, h.2.2.2]

theorem c5_witness :
    unknownType (dictGet [("type", Json.str "frob")] "type") ∧
    (∀ w : World, ∀ os : OsOracle,
      handleCommand w (.value (.obj [("type", Json.str "frob")])) os =
        .ok (w, [Event.error
                   ("Unknown command: " ++
                     pyShowOpt (dictGet [("type", Json.str "frob")] "type"))])) := by
  have hu : unknownType (dictGet [("type", Json.str "frob")] "type") := by decide
  exact ⟨hu, fun w os => c5_decode_errors.2 w [("type", Json.str "frob")] os hu⟩

/-- C7: A write command with no master descriptor is a no-op that emits
no event; with a master descriptor, a failing underlying write emits one
`error` event with a descriptive message and leaves the whole state
(running flag, pid, descriptor) unchanged, and a successful write emits
nothing. -/
theorem c7_write_behavior (h : PtyHelper) (data : String) :
    (h.master_fd = none → ∀ res, h.write data res = (h, []))
  ∧ (∀ fd m, h.master_fd = some fd →
        h.write data (some m) = (h, [Event.error ("Write failed: " ++ m)]))
  ∧ (∀ fd, h.master_fd = some fd → h.write data none = (h, [])) := by
  refine ⟨?_, ?_, ?_⟩
  · intro hm res; simp [PtyHelper.write, hm]
  · intro fd m hm; simp [PtyHelper.write, hm]
  · intro fd hm; simp [PtyHelper.write, hm]

theorem c7_witness :
    (hNoFd.master_fd = none ∧ hSample.master_fd = some 3) ∧
    ((hNoFd.master_fd = none → ∀ res, hNoFd.write "x" res = (hNoFd, []))
  ∧ (∀ fd m, hNoFd.master_fd = some fd →
        hNoFd.write "x" (some m) = (hNoFd, [Event.error ("Write failed: " ++ m)]))
  ∧ (∀ fd, hNoFd.master_fd = some fd → hNoFd.write "x" none = (hNoFd, []))) ∧
    hSample.write "x" (some "EIO") =
      (hSample, [Event.error ("Write failed: " ++ "EIO")]) :=
  ⟨⟨rfl, rfl⟩, c7_write_behavior hNoFd "x",
   (c7_write_behavior hSample "x").2.1 3 "EIO" rfl⟩

/-- A discriminator that equals one command string equals no other. -/
theorem typeIs_ne (t : Option Json) (a b : String) (hne : a ≠ b)
    (ha : typeIs t a = true) : typeIs t b = false := by
  cases t with
  | none => simp [typeIs] at ha
  | some j =>
      cases j with
      | str v =>
          simp only [typeIs, beq_iff_eq] at ha
          subst ha
          simp only [typeIs, beq_eq_false_iff_ne]
          exact hne
      | null => rfl
      | bool x => rfl
      | num n => rfl
      | arr es => rfl
      | obj fs => rfl

/-- C8 (amended): a resize command never emits any event (in particular
no `error` event): with no master descriptor it is a complete no-op;
with one, dimensions inside the unsigned 16-bit range 0..65535 are
applied and an ioctl failure is silently absorbed; but a dimension
outside that range makes `struct.pack` raise `struct.error`, which no
handler in the helper catches — handling the command raises (and the
helper then terminates with exit status 1) instead of absorbing the
failure.  The last conjunct states the dichotomy at the dispatch level:
a resize command either returns with no events and an unchanged state,
or raises `struct.error`. -/
theorem c8_resize_behavior :
    (∀ (h : PtyHelper) (cols rows : Int) (f : Bool), h.master_fd = none →
        h.resize cols rows f = .ok (h, []))
  ∧ (∀ (h : PtyHelper) (fd : Nat) (cols rows : Int) (f : Bool),
        h.master_fd = some fd →
        (0 ≤ rows ∧ rows ≤ 65535 ∧ 0 ≤ cols ∧ cols ≤ 65535) →
        h.resize cols rows f = .ok (h, []))
  ∧ (∀ (h : PtyHelper) (fd : Nat) (cols rows : Int) (f : Bool),
        h.master_fd = some fd →
        ¬(0 ≤ rows ∧ rows ≤ 65535 ∧ 0 ≤ cols ∧ cols ≤ 65535) →
        h.resize cols rows f =
          .error (.structError "H format requires 0 <= number <= 65535"))
  ∧ (∀ (w : World) (kvs : List (String × Json)) (os : OsOracle),
        typeIs (dictGet kvs "type") "resize" = true →
        handleCommand w (.value (.obj kvs)) os = .ok (w, [])
      ∨ ∃ m, handleCommand w (.value (.obj kvs)) os =
          .error (.structError m)) := by
  refine ⟨?_, ?_, ?_, ?_⟩
  · intro h cols rows f hm
    unfold PtyHelper.resize
    rw [hm]
  · intro h fd cols rows f hm hin
    unfold PtyHelper.resize
    rw [hm]
    dsimp only
    rw [if_pos hin]
    cases f
    · rfl
    · rfl
  · intro h fd cols rows f hm hin
    unfold PtyHelper.resize
    rw [hm]
    dsimp only
    rw [if_neg hin]
  · intro w kvs os ht
    have h1 : ¬ typeIs (dictGet kvs "type") "spawn" = true := by
      simp [typeIs_ne (dictGet kvs "type") "resize" "spawn" (by decide) ht]
    have h2 : ¬ typeIs (dictGet kvs "type") "write" = true := by
      simp [typeIs_ne (dictGet kvs "type") "resize" "write" (by decide) ht]
    simp only [handleCommand]
    rw [if_neg h1, if_neg h2, if_pos ht]
    rcases resize_cases w.helper (intField kvs "cols" 80)
        (intField kvs "rows" 24) os.ioctlFails with hr | ⟨m, hr⟩
    · left
      unfold resizeW
      rw [hr]
    · right
      refine ⟨m, ?_⟩
      unfold resizeW
      rw [hr]

/-- C8 counterexample to the claim as stated: with a Session active, a
resize command whose cols value exceeds 65535 makes `struct.pack` raise
`struct.error`; handling the command raises instead of returning, and
the full pipeline (a successful spawn followed by the oversized resize)
ends with the helper crashing with exit status 1 — the failure is not
silently absorbed. -/
theorem c8_counterexample :
    handleCommand w6 (.value (.obj [("type", Json.str "resize"),
        ("cols", Json.num 100000)])) failOracle =
      .error (.structError "H format requires 0 <= number <= 65535")
  ∧ mainResult [envSpawnOk, envResizeBig] = some (1, [Event.spawned 1]) :=
  ⟨rfl, rfl⟩

theorem c8_witness :
    (hNoFd.master_fd = none ∧ hNoFd.resize 80 24 true = .ok (hNoFd, []))
  ∧ (hSample.master_fd = some 3
      ∧ (0 ≤ (24 : Int) ∧ (24 : Int) ≤ 65535 ∧
         0 ≤ (80 : Int) ∧ (80 : Int) ≤ 65535)
      ∧ hSample.resize 80 24 true = .ok (hSample, []))
  ∧ (hSample.master_fd = some 3
      ∧ ¬(0 ≤ (24 : Int) ∧ (24 : Int) ≤ 65535 ∧
          0 ≤ (100000 : Int) ∧ (100000 : Int) ≤ 65535)
      ∧ hSample.resize 100000 24 false =
          .error (.structError "H format requires 0 <= number <= 65535"))
  ∧ (typeIs (dictGet [("type", Json.str "resize")] "type") "resize" = true
      ∧ (handleCommand w6 (.value (.obj [("type", Json.str "resize")]))
            failOracle = .ok (w6, [])
        ∨ ∃ m, handleCommand w6 (.value (.obj [("type", Json.str "resize")]))
            failOracle = .error (.structError m))) :=
  ⟨⟨rfl, c8_resize_behavior.1 hNoFd 80 24 true rfl⟩,
   ⟨rfl, by decide,
    c8_resize_behavior.2.1 hSample 3 80 24 true rfl (by decide)⟩,
   ⟨rfl, by decide,
    c8_resize_behavior.2.2.1 hSample 3 100000 24 false rfl (by decide)⟩,
   ⟨by decide,
    c8_resize_behavior.2.2.2 w6 [("type", Json.str "resize")] failOracle
      (by decide)⟩⟩

/-! ### Spawn failure, double spawn, non-object input -/

/-- C2 (actual code behavior at the failing input): when `pty.fork`
raises an `OSError`, `_handle_command` lets it propagate, so the helper
emits no `error` event; the exception is then caught by the stdin
block's `except OSError: break`, the loop ends, and the helper process
terminates normally (exit status 0) instead of continuing. -/
theorem c2_spawn_failure_behavior :
    (∀ (w : World) (kvs : List (String × Json)) (os : OsOracle) (m : String),
        typeIs (dictGet kvs "type") "spawn" = true → os.fork = .err m →
        handleCommand w (.value (.obj kvs)) os = .error (.osError m))
  ∧ mainResult [envSpawnFail] = some (0, []) := by
  constructor
  · intro w kvs os m ht hfork
    simp [handleCommand, ht, spawnW, PtyHelper.spawn, hfork]
  · rfl

theorem c2_witness :
    typeIs (dictGet [("type", Json.str "spawn")] "type") "spawn" = true ∧
    failOracle.fork = .err "fork failed" ∧
    handleCommand initWorld (.value (.obj [("type", Json.str "spawn")]))
        failOracle = .error (.osError "fork failed") :=
  ⟨by decide, rfl,
   c2_spawn_failure_behavior.1 initWorld [("type", Json.str "spawn")]
     failOracle "fork failed" (by decide) rfl⟩

/-- C6 (amended): a second spawn command arriving while a Session is
active is neither rejected nor ignored — it is processed exactly like a
first spawn, overwriting the Session's process identifier and PTY
descriptor with the new child's (the previous child is abandoned). -/
theorem c6_second_spawn_replaces (w : World) (kvs : List (String × Json))
    (os : OsOracle) (p0 f0 : Nat)
    (hp : w.helper.pid = some p0) (hf : w.helper.master_fd = some f0)
    (hr : w.helper.running = true)
    (ht : typeIs (dictGet kvs "type") "spawn" = true)
    (p f : Nat) (st : List String) (hfork : os.fork = .ok p f st) :
    handleCommand w (.value (.obj kvs)) os =
      .ok (⟨⟨some f, some p, true⟩, st⟩, [Event.spawned p]) := by
  simp [handleCommand, ht, spawnW, PtyHelper.spawn, hfork, forkStream]

/-- C6 counterexample to the claim as stated: with Session ⟨fd 3, pid 5⟩
active, a spawn command is processed (a `spawned` event for the new
child is emitted) and both the process identifier and the PTY descriptor
change — the second spawn is neither rejected nor ignored. -/
theorem c6_counterexample :
    handleCommand w6 (.value (.obj [("type", Json.str "spawn")])) os6 =
      .ok (⟨⟨some 4, some 7, true⟩, []⟩, [Event.spawned 7])
  ∧ (⟨⟨some 4, some 7, true⟩, []⟩ : World).helper.pid ≠ w6.helper.pid
  ∧ (⟨⟨some 4, some 7, true⟩, []⟩ : World).helper.master_fd ≠
      w6.helper.master_fd :=
  ⟨rfl, by decide, by decide⟩

theorem c6_witness :
    (w6.helper.pid = some 5 ∧ w6.helper.master_fd = some 3 ∧
     w6.helper.running = true ∧
     typeIs (dictGet [("type", Json.str "spawn")] "type") "spawn" = true ∧
     os6.fork = .ok 7 4 []) ∧
    handleCommand w6 (.value (.obj [("type", Json.str "spawn")])) os6 =
      .ok (⟨⟨some 4, some 7, true⟩, []⟩, [Event.spawned 7]) :=
  ⟨⟨rfl, rfl, rfl, by decide, rfl⟩,
   c6_second_spawn_replaces w6 [("type", Json.str "spawn")] os6 5 3 rfl rfl
     rfl (by decide) 7 4 [] rfl⟩

/-- C10: a line that decodes to a non-object raises `AttributeError` at
`cmd.get("type")` — no `error` event is emitted for it — and, since the
stdin block only catches `OSError`, the exception escapes `run`; `main`
catches it and the helper terminates with exit status 1.  The second
conjunct runs the whole pipeline on the single input line `42`. -/
theorem c10_nonobject_crashes :
    (∀ (w : World) (j : Json) (os : OsOracle), isObjJson j = false →
        handleCommand w (.value j) os = .error (.attributeError (pyTypeName j)))
  ∧ mainResult [envNum] = some (1, []) := by
  constructor
  · intro w j os hj
    cases j with
    | null => rfl
    | bool b => rfl
    | num n => rfl
    | str s => rfl
    | arr elems => rfl
    | obj fields => simp [isObjJson] at hj
  · rfl

theorem c10_witness :
    isObjJson (Json.num 42) = false ∧
    handleCommand initWorld (.value (Json.num 42)) failOracle =
      .error (.attributeError (pyTypeName (Json.num 42))) :=
  ⟨rfl, c10_nonobject_crashes.1 initWorld (Json.num 42) failOracle rfl⟩

/-! ### Shapes of the events a single command can generate -/

/-- A successfully handled command leaves the state unchanged and emits
nothing or one `error`; or it is a kill (one `killed`, `running`
cleared); or it is a successful spawn (one `spawned`, new session
installed). -/
theorem handle_cases (w : World) (d : Decoded) (os : OsOracle)
    (w' : World) (evs : List Event)
    (hh : handleCommand w d os = .ok (w', evs)) :
    (evs = [] ∧ w' = w)
  ∨ (∃ m, evs = [Event.error m] ∧ w' = w)
  ∨ (evs = [Event.killed] ∧ w' = ⟨{ w.helper with running := false }, w.mstream⟩)
  ∨ (∃ p f st, os.fork = .ok p f st ∧ evs = [Event.spawned p] ∧
       w' = ⟨⟨some f, some p, true⟩, st⟩) := by
  cases d with
  | failed details =>
      simp only [handleCommand, Except.ok.injEq, Prod.mk.injEq] at hh
      exact Or.inr (Or.inl ⟨_, hh.2.symm, hh.1.symm⟩)
  | value j =>
      cases j with
      | null => simp [handleCommand] at hh
      | bool b => simp [handleCommand] at hh
      | num n => simp [handleCommand] at hh
      | str s => simp [handleCommand] at hh
      | arr es => simp [handleCommand] at hh
      | obj kvs =>
          simp only [handleCommand] at hh
          by_cases h1 : typeIs (dictGet kvs "type") "spawn" = true
          · rw [if_pos h1] at hh
            cases hf : os.fork with
            | err m =>
                rw [hf] at hh
                simp [spawnW, PtyHelper.spawn] at hh
            | ok p f st =>
                rw [hf] at hh
                simp only [spawnW, PtyHelper.spawn, forkStream] at hh
                injection hh with hh
                injection hh with ha hb
                exact Or.inr (Or.inr (Or.inr ⟨p, f, st, rfl, hb.symm, ha.symm⟩))
          · rw [if_neg h1] at hh
            by_cases h2 : typeIs (dictGet kvs "type") "write" = true
            · rw [if_pos h2] at hh
              injection hh with hh
              have hW : writeW w (strField kvs "data" "") os.writeRes =
                  (w, (w.helper.write (strField kvs "data" "") os.writeRes).2) := by
                simp [writeW, write_fst]
              rw [hW] at hh
              injection hh with ha hb
              rcases write_snd w.helper (strField kvs "data" "") os.writeRes with
                he | ⟨m, he⟩
              · exact Or.inl ⟨hb.symm.trans he, ha.symm⟩
              · exact Or.inr (Or.inl ⟨_, hb.symm.trans he, ha.symm⟩)
            · rw [if_neg h2] at hh
              by_cases h3 : typeIs (dictGet kvs "type") "resize" = true
              · rw [if_pos h3] at hh
                rcases resize_cases w.helper (intField kvs "cols" 80)
                    (intField kvs "rows" 24) os.ioctlFails with hr | ⟨m, hr⟩
                · have hR : resizeW w (intField kvs "cols" 80)
                      (intField kvs "rows" 24) os.ioctlFails = .ok (w, []) := by
                    unfold resizeW
                    rw [hr]
                  rw [hR] at hh
                  injection hh with hh
                  injection hh with ha hb
                  exact Or.inl ⟨hb.symm, ha.symm⟩
                · have hR : resizeW w (intField kvs "cols" 80)
                      (intField kvs "rows" 24) os.ioctlFails =
                        .error (.structError m) := by
                    unfold resizeW
                    rw [hr]
                  rw [hR] at hh
                  simp at hh
              · rw [if_neg h3] at hh
                by_cases h4 : typeIs (dictGet kvs "type") "kill" = true
                · rw [if_pos h4] at hh
                  injection hh with hh
                  have hK : killW w os.killLookupFails =
                      (⟨{ w.helper with running := false }, w.mstream⟩,
                       [Event.killed]) := by
                    simp [killW, kill_spec]
                  rw [hK] at hh
                  injection hh with ha hb
                  exact Or.inr (Or.inr (Or.inl ⟨hb.symm, ha.symm⟩))
                · rw [if_neg h4] at hh
                  injection hh with hh
                  injection hh with ha hb
                  exact Or.inr (Or.inl ⟨_, hb.symm, ha.symm⟩)

/-- `_handle_command` never emits an `exit` event (only `_check_exit`
does). -/
theorem handle_no_exit (w : World) (d : Decoded) (os : OsOracle)
    (w' : World) (evs : List Event)
    (hh : handleCommand w d os = .ok (w', evs)) (c : Int) :
    Event.exit c ∉ evs := by
  intro hmem
  rcases handle_cases w d os w' evs hh with
    ⟨he, -⟩ | ⟨m, he, -⟩ | ⟨he, -⟩ | ⟨p, f, st, -, he, -⟩ <;>
    subst he <;> simp at hmem

/-- No `exit` event can come out of the stdin-handling block. -/
theorem processLines_no_exit (li : String → Decoded × OsOracle) :
    ∀ (lines : List (List Char)) (w : World) (c : Int),
      Event.exit c ∉ (processLines li w lines).events := by
  intro lines
  induction lines with
  | nil => intro w c; simp [processLines]
  | cons l rest ih =>
      intro w c
      simp only [processLines]
      by_cases hb : isBlankCh l = true
      · rw [if_pos hb]
        exact ih w c
      · rw [if_neg hb]
        cases hh : handleCommand w (li ⟨l⟩).1 (li ⟨l⟩).2 with
        | error e => simp [hh]
        | ok pr =>
            obtain ⟨w1, evs1⟩ := pr
            simp only [hh, List.mem_append, not_or]
            exact ⟨handle_no_exit w _ _ w1 evs1 hh c, ih w1 c⟩

theorem stdinPhase_no_exit (sr : Bool) (w : World) (buffer : List Char)
    (env : IterEnv) (c : Int) :
    Event.exit c ∉ (stdinPhase sr w buffer env).events' := by
  unfold stdinPhase
  cases sr with
  | false => simp [PhaseOut.events']
  | true =>
      cases hr : env.stdinRead with
      | err => simp [PhaseOut.events']
      | chunk s =>
          by_cases hs : s = ""
          · simp [hs, PhaseOut.events']
          · simp only [if_true, hs, if_false]
            rcases he : (processLines env.lineInfo w
                (splitLinesCh (buffer ++ s.data)).1).err with - | e
            · simp only [he, PhaseOut.events']
              exact processLines_no_exit env.lineInfo _ w c
            · cases e with
              | attributeError t =>
                  simp only [he, PhaseOut.events']
                  exact processLines_no_exit env.lineInfo _ w c
              | osError m =>
                  simp only [he, PhaseOut.events']
                  exact processLines_no_exit env.lineInfo _ w c
              | structError m =>
                  simp only [he, PhaseOut.events']
                  exact processLines_no_exit env.lineInfo _ w c

/-- An `exit` event in the PTY-master block forces the pid to be cleared
in the resulting state. -/
theorem checkExit_clears (h : PtyHelper) (res : WaitResult) (c : Int)
    (hmem : Event.exit c ∈ (h.checkExit res).2) :
    (h.checkExit res).1.pid = none := by
  cases hp : h.pid with
  | none => simp [PtyHelper.checkExit, hp] at hmem
  | some p =>
      cases res with
      | notYet => simp [PtyHelper.checkExit, hp] at hmem
      | reaped st => simp [PtyHelper.checkExit, hp]
      | noChild => simp [PtyHelper.checkExit, hp]

theorem masterPhase_exit (mr : Bool) (w : World) (env : IterEnv) (c : Int)
    (hmem : Event.exit c ∈ (masterPhase mr w env).2) :
    (masterPhase mr w env).1.helper.pid = none := by
  unfold masterPhase at hmem ⊢
  cases hm : w.helper.master_fd with
  | none => simp [hm] at hmem
  | some fd =>
      simp only [hm] at hmem ⊢
      cases mr with
      | false => simp at hmem
      | true =>
          simp only [if_true] at hmem ⊢
          cases hs : w.mstream with
          | nil =>
              simp only [hs] at hmem ⊢
              simp only [checkExitW] at hmem ⊢
              exact checkExit_clears w.helper env.wait c hmem
          | cons ch rest =>
              simp only [hs] at hmem ⊢
              by_cases hch : ch = ""
              · simp only [hch, if_true] at hmem ⊢
                simp only [checkExitW] at hmem ⊢
                exact checkExit_clears _ env.wait c hmem
              · simp only [hch, if_false] at hmem
                simp at hmem

/-- Exactly how the stdin block can break the loop: only with stdin
flagged readable, and then on a read error, on an empty read, or on an
`OSError` escaping a command handler (caught by this block's own
`except OSError: break`). -/
theorem stdinPhase_brk (sr : Bool) (w : World) (buffer : List Char)
    (env : IterEnv) (w' : World) (b' : List Char) (evs : List Event)
    (h : stdinPhase sr w buffer env = .brk w' b' evs) :
    sr = true ∧
      (env.stdinRead = .err ∨ env.stdinRead = .chunk "" ∨
        ∃ s m, env.stdinRead = .chunk s ∧ s ≠ "" ∧
          (processLines env.lineInfo w (splitLinesCh (buffer ++ s.data)).1).err
            = some (.osError m)) := by
  cases sr with
  | false => simp [stdinPhase] at h
  | true =>
      refine ⟨rfl, ?_⟩
      unfold stdinPhase at h
      rw [if_pos rfl] at h
      split at h
      · rename_i heq
        exact Or.inl heq
      · rename_i s heq
        split at h
        · rename_i hs
          exact Or.inr (Or.inl (hs ▸ heq))
        · rename_i hs
          dsimp only at h
          split at h
          · rename_i m heq2
            exact Or.inr (Or.inr ⟨s, m, heq, hs, heq2⟩)
          · simp at h
          · simp at h

/-- C9 (amended): the main loop terminates exactly when the select call
raises, when the parent input channel is closed (empty read) or the
stdin read raises, when an `OSError` escapes a command handler during
input processing (e.g. a failed fork — caught by the stdin block's
`except OSError: break`), or when at the end of the iteration a process
identifier is still recorded while the running flag is cleared (the
post-kill state); the child's exit alone never terminates the loop: no
terminating iteration emits an `exit` event, and an iteration that
merely detects the child's exit continues. -/
theorem c9_loop_termination :
    (∀ (w : World) (buffer : List Char) (env : IterEnv) (w' : World)
        (b' : List Char) (evs : List Event),
        step w buffer env = .stop w' b' evs →
        env.select = .err
      ∨ (∃ mr, env.select = .ready true mr ∧
           (env.stdinRead = .err ∨ env.stdinRead = .chunk "" ∨
            ∃ s m, env.stdinRead = .chunk s ∧ s ≠ "" ∧
              (processLines env.lineInfo w
                 (splitLinesCh (buffer ++ s.data)).1).err = some (.osError m)))
      ∨ (w'.helper.pid.isSome = true ∧ w'.helper.running = false))
  ∧ (∀ (w : World) (buffer : List Char) (env : IterEnv) (w' : World)
        (b' : List Char) (evs : List Event) (c : Int),
        step w buffer env = .stop w' b' evs → Event.exit c ∉ evs)
  ∧ (∀ (w : World) (buffer : List Char) (env : IterEnv),
        env.select = .err → step w buffer env = .stop w buffer [])
  ∧ (∀ (w : World) (buffer : List Char) (env : IterEnv) (mr : Bool),
        env.select = .ready true mr → env.stdinRead = .chunk "" →
        step w buffer env = .stop w buffer [])
  ∧ (∀ (f p : Nat) (buffer : List Char) (env : IterEnv) (st : WaitStatus),
        env.select = .ready false true → env.wait = .reaped st →
        step ⟨⟨some f, some p, true⟩, []⟩ buffer env =
          .cont ⟨⟨some f, none, false⟩, []⟩ buffer
            [Event.exit (exitCodeOf st)]) := by
  refine ⟨?_, ?_, ?_, ?_, ?_⟩
  · intro w buffer env w' b' evs hstep
    unfold step at hstep
    split at hstep
    · rename_i heq
      exact Or.inl heq
    · rename_i sr mr heq
      split at hstep
      · rename_i w1 b1 evs1 hph
        obtain ⟨hsr, hcond⟩ := stdinPhase_brk sr w buffer env w1 b1 evs1 hph
        exact Or.inr (Or.inl ⟨mr, by rw [heq, hsr], hcond⟩)
      · simp at hstep
      · rename_i w1 b1 evs1 hph
        dsimp only at hstep
        split at hstep
        · rename_i hcond
          injection hstep with e1 e2 e3
          refine Or.inr (Or.inr ?_)
          rw [← e1]
          simpa [Bool.and_eq_true, Bool.not_eq_true'] using hcond
        · simp at hstep
  · intro w buffer env w' b' evs c hstep hmem
    unfold step at hstep
    split at hstep
    · injection hstep with e1 e2 e3
      subst e3
      simp at hmem
    · rename_i sr mr heq
      split at hstep
      · rename_i w1 b1 evs1 hph
        injection hstep with e1 e2 e3
        subst e3
        have hne := stdinPhase_no_exit sr w buffer env c
        rw [hph] at hne
        exact hne hmem
      · simp at hstep
      · rename_i w1 b1 evs1 hph
        dsimp only at hstep
        split at hstep
        · rename_i hcond
          injection hstep with e1 e2 e3
          subst e3
          rcases List.mem_append.mp hmem with hm | hm
          · have hne := stdinPhase_no_exit sr w buffer env c
            rw [hph] at hne
            exact hne hm
          · have hpid := masterPhase_exit mr w1 env c hm
            simp [hpid] at hcond
        · simp at hstep
  · intro w buffer env hsel
    unfold step
    rw [hsel]
  · intro w buffer env mr hsel hr
    have hph : stdinPhase true w buffer env = .brk w buffer [] := by
      unfold stdinPhase
      rw [if_pos rfl, hr]
      rfl
    unfold step
    rw [hsel]
    simp only [hph]
  · intro f p buffer env st hsel hw
    have hm : masterPhase true (⟨⟨some f, some p, true⟩, []⟩ : World) env =
        (⟨⟨some f, none, false⟩, []⟩, [Event.exit (exitCodeOf st)]) := by
      unfold masterPhase
      dsimp only
      rw [if_pos rfl]
      simp [checkExitW, PtyHelper.checkExit, hw]
    unfold step
    rw [hsel]
    simp [stdinPhase, hm]

/-- C9 counterexample to the claim as stated: an iteration that
terminates the loop although select succeeded, stdin delivered a
non-empty chunk (no read error, no end-of-file) and the final state
records no process identifier (so no kill-driven shutdown): the
`OSError` of a failed fork is caught by the stdin block's
`except OSError: break`. -/
theorem c9_counterexample :
    step initWorld [] envSpawnFail = .stop initWorld [] []
  ∧ envSpawnFail.select = .ready true false
  ∧ envSpawnFail.stdinRead = .chunk "cmd\n"
  ∧ ("cmd\n" : String) ≠ ""
  ∧ initWorld.helper.pid = none ∧ initWorld.helper.running = false :=
  ⟨rfl, rfl, rfl, by decide, rfl, rfl⟩

theorem c9_witness :
    envSelErr.select = SelectResult.err ∧
    step initWorld [] envSelErr = .stop initWorld [] [] :=
  ⟨rfl, c9_loop_termination.2.2.1 initWorld [] envSelErr rfl⟩

/-! ### The per-session event discipline is an invariant of the loop -/

theorem handle_inv (b : Bool) (w : World) (d : Decoded) (os : OsOracle)
    (hw : Inv b w) (hos : cleanOracle os) (w' : World) (evs : List Event)
    (hh : handleCommand w d os = .ok (w', evs)) :
    ∃ b', chkRun b evs = some b' ∧ Inv b' w' := by
  rcases handle_cases w d os w' evs hh with
    ⟨he, hst⟩ | ⟨m, he, hst⟩ | ⟨he, hst⟩ | ⟨p, f, st, hf, he, hst⟩
  · subst he; subst hst; exact ⟨b, rfl, hw⟩
  · subst he; subst hst; exact ⟨b, rfl, hw⟩
  · subst he; subst hst
    refine ⟨b, rfl, ?_, hw.2⟩
    intro hb
    exact ⟨(hw.1 hb).1, (hw.1 hb).2⟩
  · subst he; subst hst
    refine ⟨false, rfl, by simp, ?_⟩
    have hos' : "" ∉ forkStream os.fork := hos
    rw [hf] at hos'
    exact hos'

theorem processLines_inv (li : String → Decoded × OsOracle)
    (hli : ∀ s, cleanOracle (li s).2) :
    ∀ (lines : List (List Char)) (w : World) (b : Bool), Inv b w →
      ∃ b', chkRun b (processLines li w lines).events = some b' ∧
            Inv b' (processLines li w lines).w := by
  intro lines
  induction lines with
  | nil => intro w b hw; exact ⟨b, rfl, hw⟩
  | cons l rest ih =>
      intro w b hw
      simp only [processLines]
      by_cases hb : isBlankCh l = true
      · rw [if_pos hb]
        exact ih w b hw
      · rw [if_neg hb]
        cases hh : handleCommand w (li ⟨l⟩).1 (li ⟨l⟩).2 with
        | error e => exact ⟨b, rfl, hw⟩
        | ok pr =>
            obtain ⟨w1, evs1⟩ := pr
            obtain ⟨b1, hc1, hw1⟩ :=
              handle_inv b w (li ⟨l⟩).1 (li ⟨l⟩).2 hw (hli ⟨l⟩) w1 evs1 hh
            obtain ⟨b2, hc2, hw2⟩ := ih w1 b1 hw1
            refine ⟨b2, ?_, hw2⟩
            rw [chkRun_append, hc1]
            exact hc2

theorem masterPhase_inv (mr : Bool) (w : World) (env : IterEnv) (b : Bool)
    (hw : Inv b w) :
    ∃ b', chkRun b (masterPhase mr w env).2 = some b' ∧
          Inv b' (masterPhase mr w env).1 := by
  unfold masterPhase
  cases hm : w.helper.master_fd with
  | none => exact ⟨b, rfl, hw⟩
  | some fd =>
      cases mr with
      | false => exact ⟨b, rfl, hw⟩
      | true =>
          rw [if_pos rfl]
          cases hs : w.mstream with
          | nil =>
              cases hp : w.helper.pid with
              | none =>
                  have hce : w.helper.checkExit env.wait = (w.helper, []) := by
                    simp [PtyHelper.checkExit, hp]
                  refine ⟨b, ?_, ?_⟩
                  · simp [checkExitW, hce, chkRun]
                  · simpa [checkExitW, hce] using hw
              | some p =>
                  have hb : b = false := by
                    cases b with
                    | false => rfl
                    | true => rw [(hw.1 rfl).1] at hp; exact absurd hp (by simp)
                  subst hb
                  cases hwr : env.wait with
                  | notYet =>
                      have hce : w.helper.checkExit WaitResult.notYet =
                          (w.helper, []) := by
                        simp [PtyHelper.checkExit, hp]
                      refine ⟨false, ?_, ?_⟩
                      · simp [checkExitW, hce, chkRun]
                      · simpa [checkExitW, hce] using hw
                  | reaped st =>
                      have hce : w.helper.checkExit (WaitResult.reaped st) =
                          ({ w.helper with running := false, pid := none },
                           [Event.exit (exitCodeOf st)]) := by
                        simp [PtyHelper.checkExit, hp]
                      refine ⟨true, ?_, ?_, ?_⟩
                      · simp [checkExitW, hce, chkRun, chkStep]
                      · intro _
                        exact ⟨by simp [checkExitW, hce],
                               by simp [checkExitW, hs]⟩
                      · exact hw.2
                  | noChild =>
                      have hce : w.helper.checkExit WaitResult.noChild =
                          ({ w.helper with running := false, pid := none },
                           [Event.exit (-1)]) := by
                        simp [PtyHelper.checkExit, hp]
                      refine ⟨true, ?_, ?_, ?_⟩
                      · simp [checkExitW, hce, chkRun, chkStep]
                      · intro _
                        exact ⟨by simp [checkExitW, hce],
                               by simp [checkExitW, hs]⟩
                      · exact hw.2
          | cons ch rest =>
              have hch : ¬ ch = "" := by
                intro hc
                exact hw.2 (by rw [hs, hc]; exact List.mem_cons_self _ _)
              dsimp only
              rw [if_neg hch]
              have hb : b = false := by
                cases b with
                | false => rfl
                | true => rw [(hw.1 rfl).2] at hs; exact absurd hs (by simp)
              subst hb
              refine ⟨false, by simp [chkRun, chkStep], by simp, ?_⟩
              intro hmem
              exact hw.2 (by rw [hs]; exact List.mem_cons_of_mem _ hmem)

theorem stdinPhase_inv (sr : Bool) (w : World) (buffer : List Char)
    (env : IterEnv) (b : Bool) (hw : Inv b w) (henv : cleanEnv env) :
    ∃ b', chkRun b (stdinPhase sr w buffer env).events' = some b' ∧
      (∀ w' b2 evs, stdinPhase sr w buffer env = .ok w' b2 evs →
        Inv b' w') := by
  cases sr with
  | false =>
      refine ⟨b, rfl, ?_⟩
      intro w' b2 evs h
      injection h with e1 e2 e3
      exact e1 ▸ hw
  | true =>
      unfold stdinPhase
      rw [if_pos rfl]
      cases hr : env.stdinRead with
      | err =>
          exact ⟨b, rfl, fun w' b2 evs h => absurd h (by simp)⟩
      | chunk s =>
          by_cases hs : s = ""
          · refine ⟨b, ?_, ?_⟩
            · simp [hs, PhaseOut.events', chkRun]
            · intro w' b2 evs h
              simp [hs] at h
          · obtain ⟨b', hc, hInv⟩ := processLines_inv env.lineInfo henv
              (splitLinesCh (buffer ++ s.data)).1 w b hw
            rcases he : (processLines env.lineInfo w
                (splitLinesCh (buffer ++ s.data)).1).err with - | e
            · refine ⟨b', ?_, ?_⟩
              · simpa [hs, he, PhaseOut.events'] using hc
              · intro w' b2 evs h
                simp only [hs, he] at h
                simp at h
                obtain ⟨h1, -, -⟩ := h
                subst h1
                exact hInv
            · cases e with
              | attributeError t =>
                  refine ⟨b', ?_, ?_⟩
                  · simpa [hs, he, PhaseOut.events'] using hc
                  · intro w' b2 evs h
                    simp [hs, he] at h
              | osError m =>
                  refine ⟨b', ?_, ?_⟩
                  · simpa [hs, he, PhaseOut.events'] using hc
                  · intro w' b2 evs h
                    simp [hs, he] at h
              | structError m =>
                  refine ⟨b', ?_, ?_⟩
                  · simpa [hs, he, PhaseOut.events'] using hc
                  · intro w' b2 evs h
                    simp [hs, he] at h

theorem step_inv (w : World) (buffer : List Char) (env : IterEnv) (b : Bool)
    (hw : Inv b w) (henv : cleanEnv env) :
    (∀ w' b' evs, step w buffer env = .stop w' b' evs → chkRun b evs ≠ none)
  ∧ (∀ e evs, step w buffer env = .crash e evs → chkRun b evs ≠ none)
  ∧ (∀ w' b' evs, step w buffer env = .cont w' b' evs →
        ∃ b2, chkRun b evs = some b2 ∧ Inv b2 w') := by
  refine ⟨?_, ?_, ?_⟩
  · intro w' b' evs hstep
    unfold step at hstep
    split at hstep
    · injection hstep with e1 e2 e3
      subst e3
      simp [chkRun]
    · rename_i sr mr heq
      split at hstep
      · rename_i w1 b1 evs1 hph
        injection hstep with e1 e2 e3
        subst e3
        obtain ⟨b1', hc, -⟩ := stdinPhase_inv sr w buffer env b hw henv
        rw [hph] at hc
        simp only [PhaseOut.events'] at hc
        simp [hc]
      · simp at hstep
      · rename_i w1 b1 evs1 hph
        dsimp only at hstep
        obtain ⟨b1', hc, hok⟩ := stdinPhase_inv sr w buffer env b hw henv
        rw [hph] at hc
        simp only [PhaseOut.events'] at hc
        have hw1 : Inv b1' w1 := hok w1 b1 evs1 hph
        obtain ⟨b2, hc2, -⟩ := masterPhase_inv mr w1 env b1' hw1
        split at hstep
        · injection hstep with e1 e2 e3
          subst e3
          rw [chkRun_append, hc]
          simp [hc2]
        · simp at hstep
  · intro e evs hstep
    unfold step at hstep
    split at hstep
    · simp at hstep
    · rename_i sr mr heq
      split at hstep
      · simp at hstep
      · rename_i e1 evs1 hph
        injection hstep with d1 d2
        subst d2
        obtain ⟨b1', hc, -⟩ := stdinPhase_inv sr w buffer env b hw henv
        rw [hph] at hc
        simp only [PhaseOut.events'] at hc
        simp [hc]
      · rename_i w1 b1 evs1 hph
        dsimp only at hstep
        split at hstep
        · simp at hstep
        · simp at hstep
  · intro w' b' evs hstep
    unfold step at hstep
    split at hstep
    · simp at hstep
    · rename_i sr mr heq
      split at hstep
      · simp at hstep
      · simp at hstep
      · rename_i w1 b1 evs1 hph
        dsimp only at hstep
        obtain ⟨b1', hc, hok⟩ := stdinPhase_inv sr w buffer env b hw henv
        rw [hph] at hc
        simp only [PhaseOut.events'] at hc
        have hw1 : Inv b1' w1 := hok w1 b1 evs1 hph
        obtain ⟨b2, hc2, hw2⟩ := masterPhase_inv mr w1 env b1' hw1
        split at hstep
        · simp at hstep
        · injection hstep with e1 e2 e3
          subst e3
          refine ⟨b2, ?_, e1 ▸ hw2⟩
          rw [chkRun_append, hc]
          simpa using hc2

theorem runTrace_inv : ∀ (envs : List IterEnv), cleanEnvs envs →
    ∀ (w : World) (buffer : List Char) (b : Bool), Inv b w →
      chkRun b (runTrace w buffer envs).events ≠ none := by
  intro envs
  induction envs with
  | nil =>
      intro _ w buffer b hw
      simp [runTrace, RunOut.events, chkRun]
  | cons env envs ih =>
      intro hc w buffer b hw
      have henv : cleanEnv env := hc env (List.mem_cons_self _ _)
      have hcs : cleanEnvs envs := fun e he => hc e (List.mem_cons_of_mem _ he)
      obtain ⟨hstop, hcrash, hcont⟩ := step_inv w buffer env b hw henv
      cases hst : step w buffer env with
      | stop w' b' evs =>
          simpa [runTrace, hst, RunOut.events] using hstop w' b' evs hst
      | crash e evs =>
          simpa [runTrace, hst, RunOut.events] using hcrash e evs hst
      | cont w' b' evs =>
          obtain ⟨b2, hc2, hw2⟩ := hcont w' b' evs hst
          have hrest := ih hcs w' b' b2 hw2
          cases hrt : runTrace w' b' envs with
          | stopped w2 b2' evs2 =>
              rw [hrt, RunOut.events] at hrest
              simp only [runTrace, hst, hrt, RunOut.events]
              rw [chkRun_append, hc2]
              simpa using hrest
          | crashed e evs2 =>
              rw [hrt, RunOut.events] at hrest
              simp only [runTrace, hst, hrt, RunOut.events]
              rw [chkRun_append, hc2]
              simpa using hrest
          | pending w2 b2' evs2 =>
              rw [hrt, RunOut.events] at hrest
              simp only [runTrace, hst, hrt, RunOut.events]
              rw [chkRun_append, hc2]
              simpa using hrest

/-- C1: over any run of the main loop from a fresh helper — under the
PTY reading model in which a read never reports zero bytes amid pending
data — the emitted event sequence respects the per-session discipline:
for every Session (the stretch from one `spawned` to the next), `exit`
is emitted at most once, and no `output` event for that Session follows
its `exit`. -/
theorem c1_exit_once_no_output_after_exit (envs : List IterEnv)
    (hc : cleanEnvs envs) :
    chkRun false (runTrace initWorld [] envs).events ≠ none :=
  runTrace_inv envs hc initWorld [] false ⟨by simp, by simp [initWorld]⟩

theorem c1_witness :
    cleanEnvs [envSpawnOk] ∧
    chkRun false (runTrace initWorld [] [envSpawnOk]).events ≠ none := by
  have hc : cleanEnvs [envSpawnOk] := by
    intro env henv s
    rw [List.mem_singleton] at henv
    subst henv
    simp [cleanOracle, envSpawnOk, lineSpawnOk, okOracle, forkStream]
  exact ⟨hc, c1_exit_once_no_output_after_exit [envSpawnOk] hc⟩

end Helper
